import Mathlib

/-
Verification development for the PayoffDiagrams backend.

The definitions below are a shallow embedding, in Lean 4, of the Python code in
src/backend.  Python floats are modelled by the inductive type `PyVal`
(a finite rational, NaN, an infinity, or None); once a value has passed through
`safe_float` the code works with plain rationals.  Python dicts keyed by
strings or contract ids are modelled by association lists, and the long-lived
IB session state by the structure `IBState`.  Fallible calls (the gateway's
`placeOrder`, Alpaca's `submit_order`, `validate_symbol`) are modelled with
`Except`.  Each definition cites the source file and lines it embeds.
-/

/-- Model of a Python float-or-None value as received from the gateway feeds:
either a finite value (carried as a rational), NaN, one of the two infinities,
or `None`. -/
inductive PyVal where
  | none : PyVal
  | nan : PyVal
  | inf : PyVal
  | ninf : PyVal
  | num : ℚ → PyVal
deriving DecidableEq, Repr

/-- Does a `PyVal` hold a finite numeric value? -/
def PyVal.finite : PyVal → Bool
  | .num _ => true
  | _ => false

/-- Embedding of `safe_float` (src/backend/common/utils.py lines 10-20):
`None`, NaN and the infinities are coerced to the supplied default, a finite
float is returned unchanged. -/
def safe_float (val : PyVal) (d : ℚ) : ℚ :=
  match val with
  | .none => d
  | .nan => d
  | .inf => d
  | .ninf => d
  | .num q => q

/-- Truncation toward zero, the behaviour of Python's `int()` on a float. -/
def pyTrunc (q : ℚ) : ℤ :=
  if 0 ≤ q then ⌊q⌋ else ⌈q⌉

/-- Embedding of `safe_int` (src/backend/common/utils.py lines 23-30): `None`
raises `TypeError` and NaN raises `ValueError` inside `int()`, both caught by
the `except (TypeError, ValueError)` clause and replaced by the default; a
finite float is truncated toward zero.  An infinity raises `OverflowError`,
which that clause does not catch, so the exception propagates to the
caller. -/
def safe_int (val : PyVal) (d : ℤ) : Except String ℤ :=
  match val with
  | .none => .ok d
  | .nan => .ok d
  | .inf => .error "cannot convert float infinity to integer"
  | .ninf => .error "cannot convert float infinity to integer"
  | .num q => .ok (pyTrunc q)

/-- Python's `a or b` on floats: `a` when truthy (non-zero), else `b`. -/
def pyOr (a b : ℚ) : ℚ :=
  if a = 0 then b else a

/-- Python's `x == 0.0` on a raw value: `False` for `None`, NaN and the
infinities, a numeric comparison otherwise. -/
def pyEqZero : PyVal → Bool
  | .num q => decide (q = 0)
  | _ => false

/-- Upper-casing of one ASCII character, the effect of Python's `str.upper`
on the symbols this code handles. -/
def pyUpperChar (c : Char) : Char :=
  if 'a' ≤ c ∧ c ≤ 'z' then Char.ofNat (c.toNat - 32) else c

/-- Python's `str.upper` (modelled character-wise for ASCII input). -/
def pyUpper (s : String) : String :=
  String.mk (s.toList.map pyUpperChar)

/-- Python's `str.strip`: leading and trailing whitespace removed. -/
def pyStrip (s : String) : String :=
  String.mk (((s.toList.dropWhile Char.isWhitespace).reverse.dropWhile
    Char.isWhitespace).reverse)

/-- Python's `str.replace(c, "")` for a one-character pattern: every
occurrence of the character is removed. -/
def removeChar (c : Char) (s : String) : String :=
  String.mk (s.toList.filter (fun x => decide (¬ x = c)))

/-- Python's `c in s` membership test for a single character. -/
def strContains (s : String) (c : Char) : Bool :=
  s.toList.any (fun x => decide (x = c))

/-- Embedding of the option-right normalization used by
`IBClient.place_options_order` (src/backend/brokers/ibkr.py lines 571-575 for
the single-leg branch, 638-642 for the multi-leg branch): the token is
upper-cased and `CALL`/`PUT` are mapped to `C`/`P`. -/
def normalize_right (r : String) : String :=
  let u := pyUpper r
  if u = "CALL" then "C"
  else if u = "PUT" then "P"
  else u

/-- Embedding of the expiry normalization used by
`IBClient.place_options_order` (src/backend/brokers/ibkr.py lines 579-581 and
645-646): dashes are removed when present, producing `YYYYMMDD`. -/
def normalize_expiry (e : String) : String :=
  if strContains e '-' then removeChar '-' e else e

/-- Embedding of `validate_symbol` (src/backend/common/utils.py lines 70-82):
raises on an empty symbol, upper-cases and strips, then raises unless the
symbol with `-` and `.` removed is non-empty and alphanumeric. -/
def validate_symbol (symbol : String) : Except String String :=
  if symbol = "" then .error "Symbol cannot be empty"
  else
    let cleaned := pyStrip (pyUpper symbol)
    let stripped := removeChar '.' (removeChar '-' cleaned)
    if stripped = "" ∨ ¬ stripped.toList.all Char.isAlphanum then
      .error ("Invalid symbol: " ++ symbol)
    else
      .ok cleaned

/-! ## CacheLayer: `CacheManager` (src/backend/common/cache.py) -/

/-- Model of `CacheManager`: the `_cache` dict maps a key to a pair of the
timestamp at which the entry was stored and the stored value.  Timestamps are
rationals (seconds); insertion order of the association list mirrors dict
insertion order. -/
structure CacheManager (α : Type) where
  entries : List (String × ℚ × α)
deriving DecidableEq, Repr

namespace CacheManager

/-- Dict membership/read: the first (unique) entry for a key. -/
def lookup (c : CacheManager α) (k : String) : Option (ℚ × α) :=
  (c.entries.find? (fun e => decide (e.1 = k))).map (·.2)

/-- Dict `del`: removes the entry for a key. -/
def eraseKey (c : CacheManager α) (k : String) : CacheManager α :=
  ⟨c.entries.filter (fun e => decide (¬ e.1 = k))⟩

/-- Embedding of `CacheManager.set` (src/backend/common/cache.py lines 46-48):
stores the value under the key with the current timestamp, replacing any
existing entry as Python dict assignment does. -/
def set (c : CacheManager α) (k : String) (now : ℚ) (v : α) : CacheManager α :=
  if (c.lookup k).isSome then
    ⟨c.entries.map (fun e => if e.1 = k then (k, now, v) else e)⟩
  else
    ⟨c.entries ++ [(k, now, v)]⟩

/-- Embedding of `CacheManager.get` (src/backend/common/cache.py lines 31-44)
with the TTL passed explicitly (`ttl_seconds`): a missing key is a miss; an
entry younger than the TTL (strictly) is a hit; otherwise the entry is deleted
and the call is a miss.  The pair returned is (result, cache after the call);
`now` stands for `datetime.now()`. -/
def get (c : CacheManager α) (k : String) (now ttl : ℚ) : Option α × CacheManager α :=
  match c.lookup k with
  | Option.none => (Option.none, c)
  | some (cached_time, cached_data) =>
      if now - cached_time < ttl then (some cached_data, c)
      else (Option.none, c.eraseKey k)

end CacheManager

/-! ## PositionReconciler: `IBClient.get_positions` (src/backend/brokers/ibkr.py) -/

/-- Security type of an IB contract; `FUT` stands for any type other than
stock or option (such positions produce no mapped entry). -/
inductive SecType where
  | STK : SecType
  | OPT : SecType
  | FUT : SecType
deriving DecidableEq, Repr

/-- The contract fields read by `get_positions` and the order path. -/
structure Contract where
  conId : ℕ
  secType : SecType
  symbol : String
  right : String
  strike : PyVal
  lastTradeDateOrContractMonth : String
deriving DecidableEq, Repr

/-- The `ticker.modelGreeks` record, read at lines 246-252 of
src/backend/brokers/ibkr.py. -/
structure ModelGreeks where
  delta : PyVal
  gamma : PyVal
  theta : PyVal
  vega : PyVal
  impliedVol : PyVal
  undPrice : PyVal
deriving DecidableEq, Repr

/-- A live ticker snapshot: `marketPrice` holds the result of the
`ticker.marketPrice()` call, the other fields are attributes. -/
structure Ticker where
  marketPrice : PyVal
  last : PyVal
  close : PyVal
  modelGreeks : Option ModelGreeks
deriving DecidableEq, Repr

/-- One portfolio-snapshot record from `self.ib.portfolio()`; `unrealizedPNL`
is kept raw (it is only passed through `safe_float` at output time). -/
structure PortfolioItem where
  conId : ℕ
  account : String
  unrealizedPNL : PyVal
  marketPrice : PyVal
deriving DecidableEq, Repr

/-- One raw position record from `self.ib.positions()`. -/
structure RawPosition where
  contract : Contract
  account : String
  position : PyVal
  avgCost : PyVal
deriving DecidableEq, Repr

/-- One row of `self.ib.wrapper.acctSummary` (account, tag, value, currency);
the numeric content of the string value is modelled directly. -/
structure AcctValue where
  account : String
  tag : String
  value : PyVal
  currency : String
deriving DecidableEq, Repr

/-- A live `PnL` object delivered by `reqPnL` for one account. -/
structure PnLVals where
  dailyPnL : PyVal
  unrealizedPnL : PyVal
  realizedPnL : PyVal
deriving DecidableEq, Repr

/-- One per-account entry of the `accounts_summary` dict built at
src/backend/brokers/ibkr.py lines 417-439. -/
structure AccountSummaryOut where
  net_liquidation : ℚ
  unrealized_pnl : ℚ
  realized_pnl : ℚ
  daily_pnl : ℚ
  buying_power : ℚ
deriving DecidableEq, Repr

/-- The state of an `IBClient` read by one `get_positions` call: the
`connected` flag, the gateway streams (positions, portfolio, tickers,
account-summary rows), the available P&L subscriptions, and the two caches the
call may update. -/
structure IBState where
  connected : Bool
  positions : List RawPosition
  portfolio : List PortfolioItem
  tickers : List (Contract × Ticker)
  acctSummary : List AcctValue
  pnl_available : List (String × PnLVals)
  prior_close_cache : List (ℕ × ℚ)
  account_summary_cache : List (String × AccountSummaryOut)
deriving DecidableEq, Repr

/-- Read of the `prior_close_cache` dict (conId → price). -/
def cacheLookup (c : List (ℕ × ℚ)) (k : ℕ) : Option ℚ :=
  (c.find? (fun e => decide (e.1 = k))).map (·.2)

/-- Write of a fresh `prior_close_cache` entry (only ever issued for a key not
yet present, so dict assignment is an append). -/
def cacheInsert (c : List (ℕ × ℚ)) (k : ℕ) (v : ℚ) : List (ℕ × ℚ) :=
  c ++ [(k, v)]

/-- Model of `self.ib.ticker(contract)`: the snapshot for the contract, if the
subscription has delivered one. -/
def tickerFor (tickers : List (Contract × Ticker)) (c : Contract) : Option Ticker :=
  (tickers.find? (fun e => decide (e.1.conId = c.conId))).map (·.2)

/-- The live-price fallback chain of src/backend/brokers/ibkr.py line 230:
`safe_float(marketPrice()) or safe_float(last) or safe_float(close) or 0.0`. -/
def priceChain (t : Ticker) : ℚ :=
  pyOr (safe_float t.marketPrice 0) (pyOr (safe_float t.last 0) (pyOr (safe_float t.close 0) 0))

/-- The underlying-price scan of src/backend/brokers/ibkr.py lines 262-268:
walk all live tickers, remember the fallback-chain price of each stock ticker
with the wanted symbol, and stop at the first positive one. -/
def scanUnderlying (sym : String) : List (Contract × Ticker) → ℚ → ℚ
  | [], found_price => found_price
  | (c, t) :: rest, found_price =>
      if c.symbol = sym ∧ c.secType = SecType.STK then
        let f := pyOr (safe_float t.marketPrice 0) (pyOr (safe_float t.last 0) (safe_float t.close 0))
        if f > 0 then f else scanUnderlying sym rest f
      else scanUnderlying sym rest found_price

/-- The portfolio-snapshot match of src/backend/brokers/ibkr.py lines 300-306
and 354-360: the first item with the same contract id and account. -/
def findPortfolioItem (portfolio : List PortfolioItem) (conId : ℕ) (account : String) :
    Option PortfolioItem :=
  portfolio.find? (fun item => decide (item.conId = conId ∧ item.account = account))

/-- The expiry reformatting of src/backend/brokers/ibkr.py lines 342-347:
`YYYYMMDD` is rendered as `YYYY-MM-DD` (modelled by the string-slicing
fallback branch, which agrees with the `strptime` branch on well-formed
input). -/
def expiryFormatted (s : String) : String :=
  String.mk (s.toList.take 4) ++ "-" ++ String.mk ((s.toList.drop 4).take 2) ++
    "-" ++ String.mk (s.toList.drop 6)

/-- One mapped position dict appended to `mapped_positions` (stock entries at
src/backend/brokers/ibkr.py lines 326-337, option entries at lines 386-403).
Fields present only in one of the two dict shapes are `Option`s. -/
structure MappedPosition where
  ticker : String
  account : String
  position_type : String
  qty : PyVal
  strike : Option PyVal
  expiry : Option String
  cost_basis : PyVal
  current_price : PyVal
  unrealized_pnl : PyVal
  daily_pnl : PyVal
  underlying_price : Option PyVal
  delta : PyVal
  gamma : PyVal
  theta : PyVal
  vega : PyVal
  iv : PyVal
deriving DecidableEq, Repr

/-- Embedding of the stock branch of the position loop
(src/backend/brokers/ibkr.py lines 295-337), given the already-resolved live
price, prior close and Greeks. -/
def mapSTK (portfolio : List PortfolioItem) (pos : RawPosition)
    (current_price prior_close : ℚ) : MappedPosition :=
  let contract := pos.contract
  let found := findPortfolioItem portfolio contract.conId pos.account
  let stock_pnl : PyVal :=
    match found with
    | some item => item.unrealizedPNL
    | Option.none => PyVal.num 0
  let portfolio_market_price : ℚ :=
    match found with
    | some item => safe_float item.marketPrice 0
    | Option.none => 0
  let current_price :=
    if current_price = 0 ∧ portfolio_market_price > 0 then portfolio_market_price
    else current_price
  let pos_daily_pnl : ℚ :=
    if current_price > 0 ∧ prior_close > 0 then
      (current_price - prior_close) * safe_float pos.position 0
    else 0
  let stock_pnl :=
    if found.isNone then
      if current_price > 0 then
        PyVal.num ((current_price - safe_float pos.avgCost 0) * safe_float pos.position 0)
      else stock_pnl
    else stock_pnl
  { ticker := contract.symbol
    account := pos.account
    position_type := "stock"
    qty := PyVal.num (safe_float pos.position 0)
    strike := Option.none
    expiry := Option.none
    cost_basis := PyVal.num (safe_float pos.avgCost 0)
    current_price := PyVal.num current_price
    unrealized_pnl := PyVal.num (safe_float stock_pnl 0)
    daily_pnl := PyVal.num pos_daily_pnl
    underlying_price := Option.none
    delta := PyVal.num 1
    gamma := PyVal.num 0
    theta := PyVal.num 0
    vega := PyVal.num 0
    iv := PyVal.num 0 }

/-- Embedding of the option branch of the position loop
(src/backend/brokers/ibkr.py lines 339-403), given the already-resolved live
price, prior close, Greeks and underlying price. -/
def mapOPT (portfolio : List PortfolioItem) (pos : RawPosition)
    (current_price prior_close delta gamma theta vega iv und_price : ℚ) : MappedPosition :=
  let contract := pos.contract
  let expiry_formatted := expiryFormatted contract.lastTradeDateOrContractMonth
  let found := findPortfolioItem portfolio contract.conId pos.account
  let pnl : PyVal :=
    match found with
    | some item => item.unrealizedPNL
    | Option.none => PyVal.num 0
  let portfolio_market_price : ℚ :=
    match found with
    | some item => safe_float item.marketPrice 0
    | Option.none => 0
  let current_price :=
    if current_price = 0 ∧ portfolio_market_price > 0 then portfolio_market_price
    else current_price
  let pos_daily_pnl : ℚ :=
    if current_price > 0 ∧ prior_close > 0 then
      (current_price - prior_close) * safe_float pos.position 0 * 100
    else 0
  let pnl :=
    if (pyEqZero pnl ∨ found.isNone) ∧ current_price > 0 then
      PyVal.num ((current_price - safe_float pos.avgCost 0) * safe_float pos.position 0 * 100)
    else pnl
  let avg_cost_per_share := safe_float pos.avgCost 0
  let cost_basis_per_contract : ℚ :=
    if avg_cost_per_share ≠ 0 then avg_cost_per_share / 100 else 0
  { ticker := contract.symbol
    account := pos.account
    position_type := if contract.right = "C" then "call" else "put"
    qty := PyVal.num (safe_float pos.position 0)
    strike := some (PyVal.num (safe_float contract.strike 0))
    expiry := some expiry_formatted
    cost_basis := PyVal.num cost_basis_per_contract
    current_price := PyVal.num current_price
    unrealized_pnl := PyVal.num (safe_float pnl 0)
    daily_pnl := PyVal.num pos_daily_pnl
    underlying_price := some (PyVal.num und_price)
    delta := PyVal.num delta
    gamma := PyVal.num gamma
    theta := PyVal.num theta
    vega := PyVal.num vega
    iv := PyVal.num (iv * 100) }

/-- The dispatch after price resolution (src/backend/brokers/ibkr.py lines
259-403): resolve the option underlying price by scanning stock tickers when
the Greeks did not carry it, then map the stock or option branch; any other
security type appends nothing. -/
def mapBranch (st : IBState) (pos : RawPosition)
    (current_price prior_close delta gamma theta vega iv und_price : ℚ) :
    Option MappedPosition :=
  let contract := pos.contract
  let und_price :=
    if contract.secType = SecType.OPT ∧ und_price = 0 then
      let found_price := scanUnderlying contract.symbol st.tickers 0
      if found_price = 0 then und_price else found_price
    else und_price
  match contract.secType with
  | SecType.STK => some (mapSTK st.portfolio pos current_price prior_close)
  | SecType.OPT =>
      some (mapOPT st.portfolio pos current_price prior_close delta gamma theta vega iv und_price)
  | SecType.FUT => Option.none

/-- Embedding of one iteration of the position loop
(src/backend/brokers/ibkr.py lines 214-403): resolve live price, prior close
(caching it once under the 0.1%-difference guard, lines 232-237) and Greeks
from the ticker snapshot when present, fall back to the cached prior close
when not, then map the position.  Returns the mapped entry (if any) together
with the possibly-extended prior-close cache. -/
def processPosition (st : IBState) (cache : List (ℕ × ℚ)) (pos : RawPosition) :
    Option MappedPosition × List (ℕ × ℚ) :=
  let contract := pos.contract
  match tickerFor st.tickers contract with
  | some ticker =>
      let current_price := priceChain ticker
      let prior_close := safe_float ticker.close 0
      let cache1 :=
        if prior_close > 0 ∧ cacheLookup cache contract.conId = Option.none then
          if current_price > 0 ∧ |prior_close - current_price| / current_price > 1 / 1000 then
            cacheInsert cache contract.conId prior_close
          else cache
        else cache
      match ticker.modelGreeks with
      | some g =>
          (mapBranch st pos current_price prior_close (safe_float g.delta 0)
            (safe_float g.gamma 0) (safe_float g.theta 0) (safe_float g.vega 0)
            (safe_float g.impliedVol 0) (safe_float g.undPrice 0), cache1)
      | Option.none =>
          (mapBranch st pos current_price prior_close 0 0 0 0 0 0, cache1)
  | Option.none =>
      let prior_close := (cacheLookup cache contract.conId).getD 0
      (mapBranch st pos 0 prior_close 0 0 0 0 0 0, cache)

/-- The whole position loop: fold `processPosition` over the raw positions,
collecting mapped entries and threading the prior-close cache. -/
def processAll (st : IBState) (cache : List (ℕ × ℚ)) :
    List RawPosition → List MappedPosition × List (ℕ × ℚ)
  | [] => ([], cache)
  | pos :: rest =>
      let step := processPosition st cache pos
      let restOut := processAll st step.2 rest
      match step.1 with
      | some m => (m :: restOut.1, restOut.2)
      | Option.none => restOut

/-- Read of one account's entry in the `accounts_summary` dict. -/
def lookupAcc (l : List (String × AccountSummaryOut)) (k : String) : Option AccountSummaryOut :=
  (l.find? (fun e => decide (e.1 = k))).map (·.2)

/-- In-place update of one account's entry (dict assignment on a present
key). -/
def updateAcc (l : List (String × AccountSummaryOut)) (k : String)
    (f : AccountSummaryOut → AccountSummaryOut) : List (String × AccountSummaryOut) :=
  l.map (fun e => if e.1 = k then (e.1, f e.2) else e)

/-- The zero-initialised per-account summary entry
(src/backend/brokers/ibkr.py lines 419-425). -/
def emptySummary : AccountSummaryOut :=
  { net_liquidation := 0, unrealized_pnl := 0, realized_pnl := 0, daily_pnl := 0
    buying_power := 0 }

/-- Embedding of the first summary pass (src/backend/brokers/ibkr.py lines
410-430): walk the account-summary rows, skip currencies other than USD/BASE
and the aggregate `All` pseudo-account, create missing entries, and record
`NetLiquidation` and `BuyingPower`. -/
def summaryFirstPass : List AcctValue → List (String × AccountSummaryOut) →
    List (String × AccountSummaryOut)
  | [], acc => acc
  | v :: rest, acc =>
      if ¬ (v.currency = "USD" ∨ v.currency = "BASE") then summaryFirstPass rest acc
      else if v.account = "All" then summaryFirstPass rest acc
      else
        let acc1 := if (lookupAcc acc v.account).isSome then acc
                    else acc ++ [(v.account, emptySummary)]
        let acc2 :=
          if v.tag = "NetLiquidation" then
            updateAcc acc1 v.account (fun s => { s with net_liquidation := safe_float v.value 0 })
          else if v.tag = "BuyingPower" then
            updateAcc acc1 v.account (fun s => { s with buying_power := safe_float v.value 0 })
          else acc1
        summaryFirstPass rest acc2

/-- Embedding of the second summary pass (src/backend/brokers/ibkr.py lines
432-439): for each account already in the summary, overwrite the three P&L
fields from its `reqPnL` subscription when one is available. -/
def applyPnl (pnl_available : List (String × PnLVals))
    (l : List (String × AccountSummaryOut)) : List (String × AccountSummaryOut) :=
  l.map (fun e =>
    match (pnl_available.find? (fun p => decide (p.1 = e.1))).map (·.2) with
    | some pnl =>
        (e.1, { e.2 with
                  daily_pnl := safe_float pnl.dailyPnL 0
                  unrealized_pnl := safe_float pnl.unrealizedPnL 0
                  realized_pnl := safe_float pnl.realizedPnL 0 })
    | Option.none => e)

/-- Lexicographic (code-point) comparison of character lists, Python's `<`
on strings. -/
def charListLt : List Char → List Char → Bool
  | _, [] => false
  | [], _ :: _ => true
  | a :: as, b :: bs => if a < b then true else if b < a then false else charListLt as bs

/-- Insertion sort used to model Python's `sorted` on account-id strings. -/
def insertStr (a : String) : List String → List String
  | [] => [a]
  | b :: rest => if charListLt a.toList b.toList then a :: b :: rest else b :: insertStr a rest

/-- Model of Python's `sorted` on a list of strings. -/
def sortStrings : List String → List String
  | [] => []
  | a :: rest => insertStr a (sortStrings rest)

/-- Return value of `IBClient.get_positions`: either the bare empty Python
list returned when the session is disconnected (line 179 of
src/backend/brokers/ibkr.py), or the `{accounts, positions, summary}` dict. -/
inductive GetPositionsReturn where
  | pylist : List MappedPosition → GetPositionsReturn
  | pydict : List String → List MappedPosition → List (String × AccountSummaryOut) →
      GetPositionsReturn
deriving DecidableEq, Repr

/-- The positions carried by either return shape. -/
def GetPositionsReturn.positionsOf : GetPositionsReturn → List MappedPosition
  | .pylist l => l
  | .pydict _ l _ => l

namespace IBClient

/-- Embedding of `IBClient.get_positions` (src/backend/brokers/ibkr.py lines
177-469) on the happy path: when disconnected it returns the bare empty list
(line 179) without touching the state; otherwise it maps every raw position,
builds the per-account summary (falling back to the last cached summary when
the fresh one is empty), collects the sorted account ids excluding `All`, and
returns the result dict together with the updated client state.  Purely
observational effects (prints, subscription bookkeeping, waits) are not
modelled; the `except` branch that returns the empty dict on an internal error
has no analogue because the embedded happy path is total. -/
def get_positions (st : IBState) : GetPositionsReturn × IBState :=
  if st.connected = false then (GetPositionsReturn.pylist [], st)
  else
    let mappedOut := processAll st st.prior_close_cache st.positions
    let mapped_positions := mappedOut.1
    let summary1 := summaryFirstPass st.acctSummary []
    let summary2 := applyPnl st.pnl_available summary1
    let accounts_summary :=
      if summary2.isEmpty then st.account_summary_cache else summary2
    let new_summary_cache :=
      if summary2.isEmpty then st.account_summary_cache else summary2
    let raw_accounts :=
      ((mapped_positions.map (·.account)) ++ accounts_summary.map (·.1)).dedup
    let all_accounts := sortStrings (raw_accounts.filter (fun a => decide (¬ a = "All")))
    (GetPositionsReturn.pydict all_accounts mapped_positions accounts_summary,
     { st with prior_close_cache := mappedOut.2, account_summary_cache := new_summary_cache })

end IBClient

/-! ## OrderExecutor: `IBClient.place_options_order` (src/backend/brokers/ibkr.py)
and `AlpacaBroker.place_multileg_option_order` (src/backend/brokers/alpaca.py) -/

/-- One leg dict as passed to `place_options_order`. -/
structure OrderLeg where
  symbol : String
  expiry : String
  strike : PyVal
  right : String
  action : String
  quantity : PyVal
deriving DecidableEq, Repr

/-- The fields of an `ib_insync` option contract constructed for a leg
(exchange and currency are the constants `SMART`/`USD`). -/
structure OptContract where
  symbol : String
  lastTradeDateOrContractMonth : String
  strike : ℚ
  right : String
deriving DecidableEq, Repr

/-- A `MarketOrder` or `LimitOrder` built for a leg. -/
inductive PyOrder where
  | market : String → ℤ → PyOrder
  | limit : String → ℤ → ℚ → PyOrder
deriving DecidableEq, Repr

/-- The `Trade` object returned by a successful `self.ib.placeOrder`:
its order id and (optionally) an order status. -/
structure IBTrade where
  orderId : ℕ
  status : Option String
deriving DecidableEq, Repr

/-- An Alpaca `place_option_order` result dict
(src/backend/brokers/alpaca.py lines 250-259): absent dict keys are `none`. -/
structure LegResponse where
  success : Bool
  error : Option String
  order_id : Option ℕ
  message : Option String
  status : Option String
deriving DecidableEq, Repr

/-- A top-level order-placement result dict as built by
`IBClient.place_options_order` and `AlpacaBroker.place_multileg_option_order`;
keys absent from the Python dict are `none`.  In the IBKR multi-leg success
dict the `order_id` key actually holds the whole list when more than one order
was placed; only the single-order case is carried in `order_id` here, the full
list always being in `order_ids`. -/
structure OrderResponse where
  success : Bool
  error : Option String
  order_id : Option ℕ
  order_ids : Option (List ℕ)
  status : Option String
  message : Option String
  partial_results : Option (List LegResponse)
  legs : Option (List LegResponse)
deriving DecidableEq, Repr

/-- The `{"success": False, "error": e}` dict (also the shape produced by
`format_error_response(e, success=False)`). -/
def errorResponse (e : String) : OrderResponse :=
  { success := false, error := some e, order_id := Option.none,
    order_ids := Option.none, status := Option.none, message := Option.none,
    partial_results := Option.none, legs := Option.none }

/-- Embedding of the multi-leg loop of `IBClient.place_options_order`
(src/backend/brokers/ibkr.py lines 625-686).  `gw` maps the index of a
`placeOrder` call to its outcome (an exception or a `Trade`); `calls` records
the gateway calls made so far, and an exception anywhere in the loop —
`validate_symbol`, the `int()` quantity conversion at line 660 (which raises
`OverflowError` on an infinite quantity, before the limit check), or
`placeOrder` — aborts the remaining legs, returning
`format_error_response(str(e))`.  Leg messages are modelled without the float
rendering of the strike. -/
def ib_multileg_loop (gw : ℕ → Except String IBTrade) (order_type : String)
    (limit_price : Option ℚ) :
    List OrderLeg → ℕ → List ℕ → List String → List (OptContract × PyOrder) →
    OrderResponse × List (OptContract × PyOrder)
  | [], _, order_ids, messages, calls =>
      ({ success := true, error := Option.none,
         order_id := if order_ids.length = 1 then order_ids.head? else Option.none,
         order_ids := some order_ids, status := some "Submitted",
         message := some ("Placed " ++ toString order_ids.length ++ " orders: " ++
           String.intercalate ", " messages),
         partial_results := Option.none, legs := Option.none }, calls)
  | leg :: rest, i, order_ids, messages, calls =>
      let right := normalize_right leg.right
      let expiry := normalize_expiry leg.expiry
      match validate_symbol leg.symbol with
      | .error e => (errorResponse e, calls)
      | .ok sym =>
          let contract : OptContract :=
            { symbol := sym, lastTradeDateOrContractMonth := expiry,
              strike := safe_float leg.strike 0, right := right }
          let action := pyUpper leg.action
          match safe_int leg.quantity 1 with
          | .error e => (errorResponse e, calls)
          | .ok quantity =>
          let order? : Except String PyOrder :=
            if pyUpper order_type = "MARKET" then .ok (PyOrder.market action quantity)
            else
              match limit_price with
              | Option.none =>
                  .error ("Limit price required for LIMIT orders (leg " ++ toString (i + 1) ++ ")")
              | some lp => .ok (PyOrder.limit action quantity lp)
          match order? with
          | .error e => (errorResponse e, calls)
          | .ok order =>
              match gw calls.length with
              | .error e => (errorResponse e, calls ++ [(contract, order)])
              | .ok trade =>
                  let msg := action ++ " " ++ toString quantity ++ " " ++ leg.symbol ++
                    " " ++ expiry ++ " " ++ right
                  ib_multileg_loop gw order_type limit_price rest (i + 1)
                    (order_ids ++ [trade.orderId]) (messages ++ [msg])
                    (calls ++ [(contract, order)])

namespace IBClient

/-- Embedding of `IBClient.place_options_order` (src/backend/brokers/ibkr.py
lines 541-692).  The pair returned carries the result dict together with the
list of gateway `placeOrder` calls actually issued (contract and order); the
`connected` and `ibIsConnected` flags model `self.connected` and
`self.ib.isConnected()`.  Messages are modelled without the float rendering of
the strike. -/
def place_options_order (connected ibIsConnected : Bool)
    (gw : ℕ → Except String IBTrade) (legs : List OrderLeg) (order_type : String)
    (limit_price : Option ℚ) : OrderResponse × List (OptContract × PyOrder) :=
  if ¬ (connected ∧ ibIsConnected) then (errorResponse "Not connected to IBKR", [])
  else if legs.isEmpty then (errorResponse "No legs provided", [])
  else
    match legs with
    | [leg] =>
        let right := normalize_right leg.right
        let expiry := normalize_expiry leg.expiry
        match validate_symbol leg.symbol with
        | .error e => (errorResponse e, [])
        | .ok sym =>
            let contract : OptContract :=
              { symbol := sym, lastTradeDateOrContractMonth := expiry,
                strike := safe_float leg.strike 0, right := right }
            let action := pyUpper leg.action
            match safe_int leg.quantity 1 with
            | .error e => (errorResponse e, [])
            | .ok quantity =>
            let order? : Except String PyOrder :=
              if pyUpper order_type = "MARKET" then .ok (PyOrder.market action quantity)
              else
                match limit_price with
                | Option.none => .error "Limit price required for LIMIT orders"
                | some lp => .ok (PyOrder.limit action quantity lp)
            match order? with
            | .error e => (errorResponse e, [])
            | .ok order =>
                match gw 0 with
                | .error e => (errorResponse e, [(contract, order)])
                | .ok trade =>
                    ({ success := true, error := Option.none,
                       order_id := some trade.orderId, order_ids := Option.none,
                       status := some (trade.status.getD "Submitted"),
                       message := some (action ++ " " ++ toString quantity ++ " " ++
                         leg.symbol ++ " " ++ expiry ++ " " ++ right ++ " @ " ++ order_type),
                       partial_results := Option.none, legs := Option.none },
                     [(contract, order)])
    | _ => ib_multileg_loop gw order_type limit_price legs 0 [] [] []

end IBClient

/-- The `OptionOrder` pydantic model (src/backend/common/models.py lines
58-68) with its construction-time validation: `right`, `action` and
`order_type` are `Literal` fields, `strike` must be a float and `quantity` an
integer; a violation raises a validation error that the multi-leg loop
catches. -/
structure OptionOrder where
  symbol : String
  expiry : String
  strike : ℚ
  right : String
  action : String
  quantity : ℤ
  order_type : String
  limit_price : Option ℚ
deriving DecidableEq, Repr

/-- Construction of an `OptionOrder` from a leg dict
(src/backend/brokers/alpaca.py lines 289-300), modelling pydantic's
validation of the `Literal` and numeric fields. -/
def OptionOrder.build (leg : OrderLeg) (order_type : String) (limit_price : Option ℚ) :
    Except String OptionOrder :=
  if ¬ (leg.right = "C" ∨ leg.right = "P") then
    .error "validation error for OptionOrder: right"
  else if ¬ (leg.action = "BUY" ∨ leg.action = "SELL") then
    .error "validation error for OptionOrder: action"
  else if ¬ (order_type = "MARKET" ∨ order_type = "LIMIT") then
    .error "validation error for OptionOrder: order_type"
  else
    match leg.strike, leg.quantity with
    | PyVal.num s, PyVal.num q =>
        if q.den = 1 then
          .ok { symbol := leg.symbol, expiry := leg.expiry, strike := s,
                right := leg.right, action := leg.action, quantity := q.num,
                order_type := order_type, limit_price := limit_price }
        else .error "validation error for OptionOrder: quantity"
    | _, _ => .error "validation error for OptionOrder: strike or quantity"

/-- Zero padding of Python's `f-string` format `{n:08d}` for a non-negative
value. -/
def padZeros (width : ℕ) (s : String) : String :=
  String.mk (List.replicate (width - s.length) '0') ++ s

/-- The OCC option-symbol construction of `AlpacaBroker.place_option_order`
(src/backend/brokers/alpaca.py lines 219-226). -/
def alpaca_build_symbol (order : OptionOrder) : String :=
  let expiry0 := removeChar '-' order.expiry
  let expiry := if expiry0.toList.length = 8 then String.mk (expiry0.toList.drop 2) else expiry0
  let right := if pyUpper order.right = "C" ∨ pyUpper order.right = "CALL" then "C" else "P"
  let strike_str := padZeros 8 (toString (pyTrunc (order.strike * 1000)))
  pyUpper order.symbol ++ expiry ++ right ++ strike_str

namespace AlpacaBroker

/-- Embedding of `AlpacaBroker.place_option_order`
(src/backend/brokers/alpaca.py lines 209-259).  `submit` is the outcome of
the (at most one) `client.submit_order` call — an exception or an order id
with a status; the Boolean in the result records whether that call was
issued.  Exceptions from `submit_order` are caught inside this function and
become an error dict. -/
def place_option_order (clientOk : Bool) (submit : Except String (ℕ × String))
    (order : OptionOrder) : LegResponse × Bool :=
  if ¬ clientOk then
    ({ success := false, error := some "Alpaca client not available",
       order_id := Option.none, message := Option.none, status := Option.none }, false)
  else
    let option_symbol := alpaca_build_symbol order
    let submitOutcome : Except String (ℕ × String) × Bool :=
      if pyUpper order.order_type = "MARKET" then (submit, true)
      else
        match order.limit_price with
        | Option.none => (.error "Limit price required for LIMIT orders", false)
        | some _ => (submit, true)
    match submitOutcome with
    | (.error e, called) =>
        ({ success := false, error := some e, order_id := Option.none,
           message := Option.none, status := Option.none }, called)
    | (.ok (oid, stat), called) =>
        ({ success := true, error := Option.none, order_id := some oid,
           message := some ("Option order placed: " ++ order.action ++ " " ++
             toString order.quantity ++ " " ++ option_symbol),
           status := some stat }, called)

/-- Embedding of the per-leg loop of `AlpacaBroker.place_multileg_option_order`
(src/backend/brokers/alpaca.py lines 276-311): construct the `OptionOrder`
(a validation failure is caught and appended to `errors`), return early for a
multi-leg LIMIT order, otherwise place the leg, collecting successes in
`results` and failures in `errors`.  `submits i` is the submission outcome
for leg `i`; the trailing natural number counts `submit_order` calls issued. -/
def multileg_loop (clientOk : Bool) (submits : ℕ → Except String (ℕ × String))
    (nLegs : ℕ) (order_type : String) (limit_price : Option ℚ) :
    List OrderLeg → ℕ → List LegResponse → List String → ℕ →
    (List LegResponse × List String × ℕ) ⊕ (OrderResponse × ℕ)
  | [], _, results, errors, submitted => .inl (results, errors, submitted)
  | leg :: rest, i, results, errors, submitted =>
      match OptionOrder.build leg order_type limit_price with
      | .error e =>
          multileg_loop clientOk submits nLegs order_type limit_price rest (i + 1)
            results (errors ++ [e]) submitted
      | .ok order =>
          if nLegs > 1 ∧ order_type = "LIMIT" then
            .inr (errorResponse "Multi-leg LIMIT orders not yet supported for Alpaca broker adapter",
              submitted)
          else
            let res := place_option_order clientOk (submits i) order
            let results1 := if res.1.success then results ++ [res.1] else results
            let errors1 := if res.1.success then errors else errors ++ [res.1.error.getD ""]
            multileg_loop clientOk submits nLegs order_type limit_price rest (i + 1)
              results1 errors1 (submitted + if res.2 then 1 else 0)

/-- Embedding of `AlpacaBroker.place_multileg_option_order`
(src/backend/brokers/alpaca.py lines 267-316): run the per-leg loop, then
return `success=false` with the joined error string and the
`partial_results` list when any leg failed, else a success dict with the leg
results.  The second component counts the `submit_order` calls issued. -/
def place_multileg_option_order (clientOk : Bool)
    (submits : ℕ → Except String (ℕ × String)) (legs : List OrderLeg)
    (order_type : String) (limit_price : Option ℚ) : OrderResponse × ℕ :=
  match multileg_loop clientOk submits legs.length order_type limit_price legs 0 [] [] 0 with
  | .inr out => out
  | .inl (results, errors, submitted) =>
      if ¬ errors.isEmpty then
        ({ success := false,
           error := some ("Errors placing legs: " ++ String.intercalate ", " errors),
           order_id := Option.none, order_ids := Option.none, status := Option.none,
           message := Option.none, partial_results := some results,
           legs := Option.none }, submitted)
      else
        ({ success := true, error := Option.none, order_id := Option.none,
           order_ids := Option.none, status := Option.none,
           message := some ("Placed " ++ toString results.length ++ " legs"),
           partial_results := Option.none, legs := some results }, submitted)

end AlpacaBroker

/-! ## OptionsChainAssembler: strike windowing in `get_options_chain`
(src/backend/massive_client.py) -/

/-- The fold behind Python's `min(..., key=...)`: the candidate with the
strictly smallest key wins, ties keeping the earlier one. -/
def closestIdxAux (underlying_price : ℚ) (all_strikes : List ℚ) :
    List ℕ → ℕ → ℕ
  | [], best => best
  | i :: rest, best =>
      if |all_strikes.getD i 0 - underlying_price| <
          |all_strikes.getD best 0 - underlying_price| then
        closestIdxAux underlying_price all_strikes rest i
      else
        closestIdxAux underlying_price all_strikes rest best

/-- Embedding of `min(range(len(all_strikes)), key=lambda i: abs(all_strikes[i]
- underlying_price))` (src/backend/massive_client.py line 672): the first
index whose strike is nearest the underlying price (0 on an empty list, a
case the source never reaches). -/
def closestIdx (underlying_price : ℚ) (all_strikes : List ℚ) : ℕ :=
  match List.range all_strikes.length with
  | [] => 0
  | i :: rest => closestIdxAux underlying_price all_strikes rest i

/-- The strike nearest the underlying price. -/
def nearestStrike (underlying_price : ℚ) (all_strikes : List ℚ) : ℚ :=
  all_strikes.getD (closestIdx underlying_price all_strikes) 0

/-- Embedding of the strike-window selection of `get_options_chain`
(src/backend/massive_client.py lines 669-677): with a positive underlying
price and more strikes than `max_strikes`, keep the slice
`[max(0, closest - max_strikes // 2), start + max_strikes)`; otherwise keep
the first `max_strikes` strikes (or everything when fewer).  `all_strikes` is
the sorted deduplicated strike list; natural subtraction renders Python's
`max(0, ...)`. -/
def window_strikes (underlying_price : ℚ) (max_strikes : ℕ) (all_strikes : List ℚ) :
    List ℚ :=
  if underlying_price > 0 ∧ all_strikes.length > max_strikes then
    let half := max_strikes / 2
    let closest_idx := closestIdx underlying_price all_strikes
    let start_idx := closest_idx - half
    let end_idx := min all_strikes.length (start_idx + max_strikes)
    (all_strikes.drop start_idx).take (end_idx - start_idx)
  else
    if all_strikes.length > max_strikes then all_strikes.take max_strikes else all_strikes

/-! ## Specification-side definitions used to state the claims -/

/-- Modelled from the spec's words (section 8, claim C1): the unrealized
P&L of a position equals the matching portfolio-snapshot value when such a
match is present and non-zero, and otherwise the fallback
`(current_price - avg_cost) * signed_qty * multiplier`. -/
def spec_unrealized_pnl (found : Option PortfolioItem)
    (current_price avg_cost qty mult : ℚ) : ℚ :=
  match found with
  | some item =>
      if ¬ pyEqZero item.unrealizedPNL then safe_float item.unrealizedPNL 0
      else (current_price - avg_cost) * qty * mult
  | Option.none => (current_price - avg_cost) * qty * mult

/-- The unrealized P&L the stock branch actually reports: the
portfolio-snapshot value whenever a match is present (even a zero one);
with no match, the fallback applies only when the resolved current price is
positive, else 0. -/
def code_unrealized_stk (found : Option PortfolioItem) (current_price avg_cost qty : ℚ) : ℚ :=
  match found with
  | some item => safe_float item.unrealizedPNL 0
  | Option.none => if current_price > 0 then (current_price - avg_cost) * qty else 0

/-- The unrealized P&L the option branch actually reports: the fallback
`(current - avg_cost) * qty * 100` when the matched value compares equal to
zero (or no match exists) and the resolved current price is positive;
otherwise the matched value coerced through `safe_float` (0 with no match). -/
def code_unrealized_opt (found : Option PortfolioItem) (current_price avg_cost qty : ℚ) : ℚ :=
  match found with
  | some item =>
      if pyEqZero item.unrealizedPNL ∧ current_price > 0 then
        (current_price - avg_cost) * qty * 100
      else safe_float item.unrealizedPNL 0
  | Option.none =>
      if current_price > 0 then (current_price - avg_cost) * qty * 100 else 0

/-- Are all numeric fields of a mapped position finite floats? -/
def MappedPosition.allFinite (m : MappedPosition) : Bool :=
  m.qty.finite && m.cost_basis.finite && m.current_price.finite &&
  m.unrealized_pnl.finite && m.daily_pnl.finite && m.delta.finite &&
  m.gamma.finite && m.theta.finite && m.vega.finite && m.iv.finite &&
  (match m.strike with | some v => v.finite | Option.none => true) &&
  (match m.underlying_price with | some v => v.finite | Option.none => true)

/-! ## Concrete scenarios used as witnesses and counterexamples -/

/-- A stock contract with contract id 1. -/
def c1Contract : Contract :=
  { conId := 1, secType := SecType.STK, symbol := "ACME", right := "",
    strike := PyVal.num 0, lastTradeDateOrContractMonth := "" }

/-- A long-10-share stock position at average cost 400. -/
def c1Pos : RawPosition :=
  { contract := c1Contract, account := "U1", position := PyVal.num 10,
    avgCost := PyVal.num 400 }

/-- A client state holding that stock position with live price 420 and a
matching portfolio item whose `unrealizedPNL` is exactly zero. -/
def c1State : IBState :=
  { connected := true, positions := [c1Pos],
    portfolio := [{ conId := 1, account := "U1", unrealizedPNL := PyVal.num 0,
                    marketPrice := PyVal.num 0 }],
    tickers := [(c1Contract, { marketPrice := PyVal.num 420, last := PyVal.num 0,
                               close := PyVal.num 0, modelGreeks := Option.none })],
    acctSummary := [], pnl_available := [], prior_close_cache := [],
    account_summary_cache := [] }

/-- The mapped entry the stock branch produces in the `c1State` scenario. -/
def c1Mapped : MappedPosition :=
  mapSTK c1State.portfolio c1Pos 420 0

/-- A disconnected client state. -/
def c3State : IBState :=
  { connected := false, positions := [], portfolio := [], tickers := [],
    acctSummary := [], pnl_available := [], prior_close_cache := [],
    account_summary_cache := [] }

/-- A connected state whose prior-close cache already holds 390 for contract
id 1, while the live feed now reports a close of 500 (more than 0.1% away
from the live price 420). -/
def c4State : IBState :=
  { connected := true, positions := [c1Pos],
    portfolio := [],
    tickers := [(c1Contract, { marketPrice := PyVal.num 420, last := PyVal.num 0,
                               close := PyVal.num 500, modelGreeks := Option.none })],
    acctSummary := [], pnl_available := [], prior_close_cache := [(1, 390)],
    account_summary_cache := [] }

/-- An option contract (a call on ACME, strike 250). -/
def c6Contract : Contract :=
  { conId := 2, secType := SecType.OPT, symbol := "ACME", right := "C",
    strike := PyVal.num 250, lastTradeDateOrContractMonth := "20260116" }

/-- A one-contract option position bought at raw average cost 500. -/
def c6Pos : RawPosition :=
  { contract := c6Contract, account := "U1", position := PyVal.num 1,
    avgCost := PyVal.num 500 }

/-- A client state holding that option position with no ticker data yet. -/
def c6State : IBState :=
  { connected := true, positions := [c6Pos], portfolio := [], tickers := [],
    acctSummary := [], pnl_available := [], prior_close_cache := [],
    account_summary_cache := [] }

/-- The mapped entry the option branch produces in the `c6State` scenario. -/
def c6Mapped : MappedPosition :=
  mapOPT c6State.portfolio c6Pos 0 0 0 0 0 0 0 0

/-- The same option position with raw average cost zero. -/
def c6PosZero : RawPosition :=
  { contract := c6Contract, account := "U1", position := PyVal.num 1,
    avgCost := PyVal.num 0 }

/-- A client state holding the zero-cost option position. -/
def c6StateZero : IBState :=
  { connected := true, positions := [c6PosZero], portfolio := [], tickers := [],
    acctSummary := [], pnl_available := [], prior_close_cache := [],
    account_summary_cache := [] }

/-- The mapped entry for the zero-cost option position. -/
def c6MappedZero : MappedPosition :=
  mapOPT c6StateZero.portfolio c6PosZero 0 0 0 0 0 0 0 0

/-- An option position whose feed values are all `None`, NaN or infinite. -/
def c10Pos : RawPosition :=
  { contract := c6Contract, account := "U1", position := PyVal.none,
    avgCost := PyVal.nan }

/-- A client state delivering NaN/None/infinite raw values for that
position. -/
def c10State : IBState :=
  { connected := true, positions := [c10Pos],
    portfolio := [{ conId := 2, account := "U1", unrealizedPNL := PyVal.nan,
                    marketPrice := PyVal.ninf }],
    tickers := [(c6Contract,
      { marketPrice := PyVal.nan, last := PyVal.none, close := PyVal.inf,
        modelGreeks := some { delta := PyVal.nan, gamma := PyVal.none,
                              theta := PyVal.inf, vega := PyVal.ninf,
                              impliedVol := PyVal.nan, undPrice := PyVal.none } })],
    acctSummary := [], pnl_available := [], prior_close_cache := [],
    account_summary_cache := [] }

/-- The mapped entry the option branch produces in the `c10State` scenario. -/
def c10Mapped : MappedPosition :=
  mapOPT c10State.portfolio c10Pos 0 0 0 0 0 0 0 0

/-- A well-formed call leg (right spelled `CALL`, dashed expiry). -/
def c8LegCall : OrderLeg :=
  { symbol := "AAPL", expiry := "2026-01-16", strike := PyVal.num 250,
    right := "CALL", action := "BUY", quantity := PyVal.num 1 }

/-- A well-formed put leg (right spelled `PUT`, dashed expiry). -/
def c8LegPut : OrderLeg :=
  { symbol := "AAPL", expiry := "2026-01-16", strike := PyVal.num 240,
    right := "PUT", action := "SELL", quantity := PyVal.num 1 }

/-- A gateway that accepts every order with order id 7 and no status. -/
def gwAccept : ℕ → Except String IBTrade :=
  fun _ => .ok { orderId := 7, status := Option.none }

/-- A gateway that accepts the first order (id 101) and rejects every later
one. -/
def gwFailSecond : ℕ → Except String IBTrade :=
  fun i => if i = 0 then .ok { orderId := 101, status := Option.none }
           else .error "rejected"

/-- A call leg already in normalized form (right `C`, digits-only expiry). -/
def c2LegCall : OrderLeg :=
  { symbol := "AAPL", expiry := "20260116", strike := PyVal.num 250,
    right := "C", action := "BUY", quantity := PyVal.num 1 }

/-- A put leg already in normalized form. -/
def c2LegPut : OrderLeg :=
  { symbol := "AAPL", expiry := "20260116", strike := PyVal.num 240,
    right := "P", action := "SELL", quantity := PyVal.num 1 }

/-- An Alpaca submission oracle that accepts leg 0 (order id 11, status
`accepted`) and raises on every later leg. -/
def alpacaFailSecond : ℕ → Except String (ℕ × String) :=
  fun i => if i = 0 then .ok (11, "accepted") else .error "rejected by alpaca"

/-- An Alpaca submission oracle that is never supposed to be reached. -/
def alpacaNever : ℕ → Except String (ℕ × String) :=
  fun _ => .error "should not be called"

/-! ## Helper lemmas -/

theorem cacheLookup_append {c : List (ℕ × ℚ)} {k : ℕ} {v : ℚ} (l : List (ℕ × ℚ))
    (h : cacheLookup c k = some v) : cacheLookup (c ++ l) k = some v := by
  induction c with
  | nil => simp [cacheLookup] at h
  | cons e rest ih =>
      unfold cacheLookup at h ⊢
      rw [List.cons_append, List.find?]
      rw [List.find?] at h
      by_cases he : e.1 = k
      · simpa [he] using h
      · simp only [decide_eq_false he] at h ⊢
        exact ih h

theorem processPosition_cache (st : IBState) (cache : List (ℕ × ℚ)) (pos : RawPosition)
    {k : ℕ} {v : ℚ} (h : cacheLookup cache k = some v) :
    cacheLookup (processPosition st cache pos).2 k = some v := by
  unfold processPosition
  cases htick : tickerFor st.tickers pos.contract with
  | none => simp only [htick]; exact h
  | some t =>
      cases hg : t.modelGreeks with
      | none =>
          simp only [htick, hg]
          split_ifs with h1 h2
          · exact cacheLookup_append _ h
          · exact h
          · exact h
      | some g =>
          simp only [htick, hg]
          split_ifs with h1 h2
          · exact cacheLookup_append _ h
          · exact h
          · exact h

theorem processAll_cache (st : IBState) {k : ℕ} {v : ℚ} :
    ∀ (l : List RawPosition) (cache : List (ℕ × ℚ)),
      cacheLookup cache k = some v → cacheLookup (processAll st cache l).2 k = some v := by
  intro l
  induction l with
  | nil => intro cache h; simpa [processAll] using h
  | cons pos rest ih =>
      intro cache h
      unfold processAll
      have h1 := processPosition_cache st cache pos h
      have h2 := ih (processPosition st cache pos).2 h1
      cases hm : (processPosition st cache pos).1 with
      | none => simp only [hm]; exact h2
      | some m => simp only [hm]; exact h2

theorem mapSTK_spec (portfolio : List PortfolioItem) (pos : RawPosition)
    (current_price prior_close : ℚ) :
    (mapSTK portfolio pos current_price prior_close).unrealized_pnl
      = PyVal.num (code_unrealized_stk
          (findPortfolioItem portfolio pos.contract.conId pos.account)
          (safe_float (mapSTK portfolio pos current_price prior_close).current_price 0)
          (safe_float pos.avgCost 0) (safe_float pos.position 0)) := by
  unfold mapSTK code_unrealized_stk
  cases hfound : findPortfolioItem portfolio pos.contract.conId pos.account with
  | some item => simp [hfound, safe_float]
  | none =>
      simp only [hfound, Option.isNone_none, lt_irrefl, and_false, if_false, if_true,
        safe_float]
      split_ifs with h1 <;> simp [safe_float]
theorem mapOPT_spec (portfolio : List PortfolioItem) (pos : RawPosition)
    (current_price prior_close delta gamma theta vega iv und_price : ℚ) :
    (mapOPT portfolio pos current_price prior_close delta gamma theta vega iv
        und_price).unrealized_pnl
      = PyVal.num (code_unrealized_opt
          (findPortfolioItem portfolio pos.contract.conId pos.account)
          (safe_float (mapOPT portfolio pos current_price prior_close delta gamma theta
            vega iv und_price).current_price 0)
          (safe_float pos.avgCost 0) (safe_float pos.position 0)) := by
  unfold mapOPT code_unrealized_opt
  cases hfound : findPortfolioItem portfolio pos.contract.conId pos.account with
  | some item =>
      simp only [hfound, Option.isNone_some, Bool.false_eq_true, or_false, safe_float]
      split_ifs with h <;> rfl
  | none =>
      simp only [hfound, Option.isNone_none, or_true, true_and, safe_float]
      split_ifs with h <;> rfl

theorem mapOPT_cost_basis (portfolio : List PortfolioItem) (pos : RawPosition)
    (current_price prior_close delta gamma theta vega iv und_price : ℚ) :
    (mapOPT portfolio pos current_price prior_close delta gamma theta vega iv
        und_price).cost_basis
      = PyVal.num (safe_float pos.avgCost 0 / 100) := by
  unfold mapOPT
  by_cases h : safe_float pos.avgCost 0 = 0 <;> simp [h]

theorem mapSTK_allFinite (portfolio : List PortfolioItem) (pos : RawPosition)
    (current_price prior_close : ℚ) :
    (mapSTK portfolio pos current_price prior_close).allFinite = true := by
  simp [mapSTK, MappedPosition.allFinite, PyVal.finite]

theorem mapOPT_allFinite (portfolio : List PortfolioItem) (pos : RawPosition)
    (current_price prior_close delta gamma theta vega iv und_price : ℚ) :
    (mapOPT portfolio pos current_price prior_close delta gamma theta vega iv
        und_price).allFinite = true := by
  simp [mapOPT, MappedPosition.allFinite, PyVal.finite]

theorem mapBranch_some (st : IBState) (pos : RawPosition)
    (cp pc dl gm th vg iv up : ℚ) (m : MappedPosition)
    (h : mapBranch st pos cp pc dl gm th vg iv up = some m) :
    (pos.contract.secType = SecType.STK ∧ m = mapSTK st.portfolio pos cp pc) ∨
    (pos.contract.secType = SecType.OPT ∧
      ∃ u, m = mapOPT st.portfolio pos cp pc dl gm th vg iv u) := by
  unfold mapBranch at h
  dsimp only at h
  cases hsec : pos.contract.secType with
  | STK =>
      left
      refine ⟨rfl, ?_⟩
      rw [hsec] at h
      simp at h
      exact h.symm
  | OPT =>
      right
      refine ⟨rfl, ?_⟩
      rw [hsec] at h
      simp only [true_and] at h
      split_ifs at h with h1 <;> simp at h <;> exact ⟨_, h.symm⟩
  | FUT =>
      rw [hsec] at h
      simp at h

theorem processPosition_shape (st : IBState) (cache : List (ℕ × ℚ)) (pos : RawPosition) :
    ∃ cp pc dl gm th vg iv up,
      (processPosition st cache pos).1 = mapBranch st pos cp pc dl gm th vg iv up := by
  unfold processPosition
  dsimp only
  cases htick : tickerFor st.tickers pos.contract with
  | none =>
      refine ⟨0, (cacheLookup cache pos.contract.conId).getD 0, 0, 0, 0, 0, 0, 0, ?_⟩
      simp only [htick]
  | some t =>
      cases hg : t.modelGreeks with
      | none =>
          refine ⟨priceChain t, safe_float t.close 0, 0, 0, 0, 0, 0, 0, ?_⟩
          simp only [htick, hg]
      | some g =>
          refine ⟨priceChain t, safe_float t.close 0, safe_float g.delta 0,
            safe_float g.gamma 0, safe_float g.theta 0, safe_float g.vega 0,
            safe_float g.impliedVol 0, safe_float g.undPrice 0, ?_⟩
          simp only [htick, hg]

theorem processPosition_allFinite (st : IBState) (cache : List (ℕ × ℚ))
    (pos : RawPosition) (m : MappedPosition)
    (h : (processPosition st cache pos).1 = some m) : m.allFinite = true := by
  obtain ⟨cp, pc, dl, gm, th, vg, iv, up, hshape⟩ := processPosition_shape st cache pos
  rw [hshape] at h
  rcases mapBranch_some st pos cp pc dl gm th vg iv up m h with ⟨_, hm⟩ | ⟨_, u, hm⟩
  · rw [hm]; exact mapSTK_allFinite _ _ _ _
  · rw [hm]; exact mapOPT_allFinite _ _ _ _ _ _ _ _ _ _

theorem processAll_allFinite (st : IBState) :
    ∀ (l : List RawPosition) (cache : List (ℕ × ℚ)) (m : MappedPosition),
      m ∈ (processAll st cache l).1 → m.allFinite = true := by
  intro l
  induction l with
  | nil => intro cache m hm; simp [processAll] at hm
  | cons pos rest ih =>
      intro cache m hm
      unfold processAll at hm
      dsimp only at hm
      cases hp : (processPosition st cache pos).1 with
      | none =>
          rw [hp] at hm
          exact ih _ m hm
      | some m0 =>
          rw [hp] at hm
          rcases List.mem_cons.mp hm with hm0 | hmrest
          · subst hm0; exact processPosition_allFinite st cache pos m hp
          · exact ih _ m hmrest
/-! ## Claim theorems -/

/-- C4: once `PriorCloseCache[conId]` holds a value, a later reconciliation
pass never changes it at all (the 0.1%-difference guard only governs the
initial write, so in particular the entry changes only under that condition,
as the claim states). -/
theorem c4_prior_close_cache_write_once (st : IBState) (conId : ℕ) (v : ℚ)
    (h : cacheLookup st.prior_close_cache conId = some v) :
    cacheLookup (IBClient.get_positions st).2.prior_close_cache conId = some v := by
  unfold IBClient.get_positions
  by_cases hc : st.connected = false
  · simp only [hc, if_true]
    exact h
  · simp only [hc, if_false]
    exact processAll_cache st st.positions st.prior_close_cache h

/-- Witness for C4: with 390 already cached for contract id 1 and the feed
now reporting close 500 against live price 420, the pass leaves 390 in
place. -/
theorem c4_prior_close_cache_write_once_witness :
    cacheLookup (IBClient.get_positions c4State).2.prior_close_cache 1 = some 390 :=
  c4_prior_close_cache_write_once c4State 1 390 (by decide)

/-- C3 counterexample: on a disconnected session `get_positions` returns the
bare empty Python list `[]` (src/backend/brokers/ibkr.py line 179), not the
`{accounts: [], positions: [], summary: {}}` dict the claim describes. -/
theorem c3_counterexample :
    (IBClient.get_positions c3State).1 = GetPositionsReturn.pylist [] ∧
    GetPositionsReturn.pylist [] ≠ GetPositionsReturn.pydict [] [] [] := by
  constructor
  · decide
  · decide

/-- C3 (amended): when the session is disconnected, `get_positions` returns
the empty list `[]` without raising and without touching the client state;
the empty `{accounts, positions, summary}` dict is only the fallback of the
internal `except` branch while connected. -/
theorem c3_disconnected_returns_empty_list (st : IBState) (h : st.connected = false) :
    IBClient.get_positions st = (GetPositionsReturn.pylist [], st) := by
  unfold IBClient.get_positions
  simp [h]

/-- Witness for C3 (amended) at the concrete disconnected state. -/
theorem c3_disconnected_returns_empty_list_witness :
    IBClient.get_positions c3State = (GetPositionsReturn.pylist [], c3State) :=
  c3_disconnected_returns_empty_list c3State (by decide)

/-- C6: every option position reports `cost_basis` equal to the raw average
cost (coerced through `safe_float`) divided by 100; in particular a raw
average cost of 0 yields 0 = 0 / 100. -/
theorem c6_option_cost_basis (st : IBState) (cache cache2 : List (ℕ × ℚ))
    (pos : RawPosition) (m : MappedPosition)
    (hsec : pos.contract.secType = SecType.OPT)
    (h : processPosition st cache pos = (some m, cache2)) :
    m.cost_basis = PyVal.num (safe_float pos.avgCost 0 / 100) := by
  obtain ⟨cp, pc, dl, gm, th, vg, iv, up, hshape⟩ := processPosition_shape st cache pos
  have h1 : (processPosition st cache pos).1 = some m := by rw [h]
  rw [hshape] at h1
  rcases mapBranch_some st pos cp pc dl gm th vg iv up m h1 with ⟨hstk, _⟩ | ⟨_, u, hm⟩
  · rw [hstk] at hsec; cases hsec
  · rw [hm]; exact mapOPT_cost_basis _ _ _ _ _ _ _ _ _ _
/-- Witness for C6: raw average cost 500 reports cost basis 5, raw average
cost 0 reports 0. -/
theorem c6_option_cost_basis_witness :
    c6Mapped.cost_basis = PyVal.num 5 ∧ c6MappedZero.cost_basis = PyVal.num 0 := by
  constructor
  · have h := c6_option_cost_basis c6State [] [] c6Pos c6Mapped rfl rfl
    rw [h]
    norm_num [c6Pos, safe_float]
  · have h := c6_option_cost_basis c6StateZero [] [] c6PosZero c6MappedZero rfl rfl
    rw [h]
    norm_num [c6PosZero, safe_float]

/-- C10: `safe_float` coerces `None`, NaN and the infinities to the default,
and every numeric field of every position emitted by `get_positions` is a
finite float. -/
theorem c10_positions_finite :
    (∀ d : ℚ, safe_float PyVal.none d = d ∧ safe_float PyVal.nan d = d ∧
      safe_float PyVal.inf d = d ∧ safe_float PyVal.ninf d = d) ∧
    ∀ (st : IBState) (m : MappedPosition),
      m ∈ (IBClient.get_positions st).1.positionsOf → m.allFinite = true := by
  constructor
  · intro d; exact ⟨rfl, rfl, rfl, rfl⟩
  · intro st m hm
    unfold IBClient.get_positions at hm
    by_cases hc : st.connected = false
    · simp only [hc, if_true, GetPositionsReturn.positionsOf] at hm
      cases hm
    · simp only [hc, if_false] at hm
      dsimp only [GetPositionsReturn.positionsOf] at hm
      exact processAll_allFinite st st.positions st.prior_close_cache m hm

/-- Witness for C10: a position whose raw quantity is `None`, average cost
NaN, live prices NaN/None/infinite and Greeks NaN/None/infinite still maps to
finite numeric fields. -/
theorem c10_positions_finite_witness : c10Mapped.allFinite = true :=
  c10_positions_finite.2 c10State c10Mapped (List.Mem.head _)

/-- C1 counterexample: a stock position (qty 10, avg cost 400, live price
420) whose portfolio match carries `unrealizedPNL = 0` is reported with
unrealized P&L 0 — the portfolio value — whereas the claim prescribes the
fallback `(420 - 400) * 10 * 1 = 200` because the match is present but
zero. -/
theorem c1_counterexample :
    ((processPosition c1State [] c1Pos).1.map (·.unrealized_pnl)) = some (PyVal.num 0) ∧
    ((processPosition c1State [] c1Pos).1.map (·.current_price)) = some (PyVal.num 420) ∧
    spec_unrealized_pnl (findPortfolioItem c1State.portfolio 1 "U1") 420 400 10 1 = 200 ∧
    (PyVal.num 0 : PyVal) ≠ PyVal.num 200 := by
  refine ⟨by decide, by decide, ?_, by decide⟩
  have hf : findPortfolioItem c1State.portfolio 1 "U1"
      = some { conId := 1, account := "U1", unrealizedPNL := PyVal.num 0,
               marketPrice := PyVal.num 0 } := by decide
  rw [hf]
  norm_num [spec_unrealized_pnl, pyEqZero, safe_float]

/-- C1 (amended): the unrealized P&L of every mapped position is determined
as follows from the portfolio match, the reported current price, the average
cost and the signed quantity.  Stock: the portfolio value whenever a match is
present (zero included), else the fallback `(current - avg_cost) * qty` when
the current price is positive, else 0.  Option: the fallback
`(current - avg_cost) * qty * 100` when the match is absent or compares equal
to zero and the current price is positive; otherwise the matched value
coerced through `safe_float` (0 when absent). -/
theorem c1_unrealized_pnl_characterization (st : IBState)
    (cache cache2 : List (ℕ × ℚ)) (pos : RawPosition) (m : MappedPosition)
    (h : processPosition st cache pos = (some m, cache2)) :
    m.unrealized_pnl = PyVal.num
      (match pos.contract.secType with
       | SecType.STK =>
           code_unrealized_stk
             (findPortfolioItem st.portfolio pos.contract.conId pos.account)
             (safe_float m.current_price 0) (safe_float pos.avgCost 0)
             (safe_float pos.position 0)
       | SecType.OPT =>
           code_unrealized_opt
             (findPortfolioItem st.portfolio pos.contract.conId pos.account)
             (safe_float m.current_price 0) (safe_float pos.avgCost 0)
             (safe_float pos.position 0)
       | SecType.FUT => 0) := by
  obtain ⟨cp, pc, dl, gm, th, vg, iv, up, hshape⟩ := processPosition_shape st cache pos
  have h1 : (processPosition st cache pos).1 = some m := by rw [h]
  rw [hshape] at h1
  rcases mapBranch_some st pos cp pc dl gm th vg iv up m h1 with ⟨hsec, hm⟩ | ⟨hsec, u, hm⟩
  · rw [hsec, hm]
    exact mapSTK_spec st.portfolio pos cp pc
  · rw [hsec, hm]
    exact mapOPT_spec st.portfolio pos cp pc dl gm th vg iv u

/-- Witness for C1 (amended): in the found-but-zero stock scenario the
characterization yields unrealized P&L 0 (the portfolio value). -/
theorem c1_unrealized_pnl_characterization_witness :
    c1Mapped.unrealized_pnl = PyVal.num 0 := by
  have h := c1_unrealized_pnl_characterization c1State [] [] c1Pos c1Mapped rfl
  rw [h]
  rfl
theorem find?_map_replace {α : Type} (l : List (String × ℚ × α)) (k : String)
    (t : ℚ) (v : α) :
    ((l.map (fun e => if e.1 = k then (k, t, v) else e)).find?
        (fun e => decide (e.1 = k)))
      = if (l.find? (fun e => decide (e.1 = k))).isSome then some (k, t, v)
        else Option.none := by
  induction l with
  | nil => simp
  | cons e rest ih =>
      by_cases he : e.1 = k
      · simp [List.find?, he]
      · simp only [List.map_cons, List.find?, he, if_false, decide_eq_false he,
          decide_eq_false, Bool.false_eq_true]
        exact ih

theorem find?_append_missing {α : Type} (l : List (String × ℚ × α)) (k : String)
    (t : ℚ) (v : α) (h : l.find? (fun e => decide (e.1 = k)) = Option.none) :
    (l ++ [(k, t, v)]).find? (fun e => decide (e.1 = k)) = some (k, t, v) := by
  induction l with
  | nil => simp [List.find?]
  | cons e rest ih =>
      rw [List.find?] at h
      by_cases he : e.1 = k
      · simp [he] at h
      · rw [List.cons_append, List.find?]
        simp only [decide_eq_false he, Bool.false_eq_true] at h ⊢
        exact ih h

theorem CacheManager.lookup_set {α : Type} (c : CacheManager α) (k : String)
    (t : ℚ) (v : α) : (c.set k t v).lookup k = some (t, v) := by
  rcases hf : c.entries.find? (fun e => decide (e.1 = k)) with _ | e
  · have hl : c.lookup k = Option.none := by
      unfold CacheManager.lookup; rw [hf]; rfl
    unfold CacheManager.set
    rw [hl]
    simp only [Option.isSome_none, Bool.false_eq_true, if_false]
    show Option.map (·.2) ((c.entries ++ [(k, t, v)]).find? (fun e => decide (e.1 = k)))
      = some (t, v)
    rw [find?_append_missing c.entries k t v hf]
    rfl
  · have hl : c.lookup k = some e.2 := by
      unfold CacheManager.lookup; rw [hf]; rfl
    unfold CacheManager.set
    rw [hl]
    simp only [Option.isSome_some, if_true]
    show Option.map (·.2)
        ((c.entries.map (fun e => if e.1 = k then (k, t, v) else e)).find?
          (fun e => decide (e.1 = k)))
      = some (t, v)
    rw [find?_map_replace, hf]
    rfl

theorem CacheManager.lookup_erase {α : Type} (c : CacheManager α) (k : String) :
    (c.eraseKey k).lookup k = Option.none := by
  show Option.map (·.2)
      ((c.entries.filter (fun e => decide (¬ e.1 = k))).find?
        (fun e => decide (e.1 = k)))
    = Option.none
  rcases hf : (c.entries.filter (fun e => decide (¬ e.1 = k))).find?
      (fun e => decide (e.1 = k)) with _ | e
  · rw [hf]; rfl
  · exfalso
    have hmem := List.mem_of_find?_eq_some hf
    have hp := List.find?_some hf
    have hq := List.of_mem_filter hmem
    simp at hp hq
    exact hq hp

/-- C9: on a cache where `set` stored a value at time `tset`, a `get` at time
`now` with the given TTL returns the value exactly when `now - tset < ttl`
(strictly); on expiry the entry is evicted from the returned cache and the
call is a miss; a key never stored is a miss that leaves the cache
unchanged. -/
theorem c9_cache_ttl (c : CacheManager ℚ) (k : String) (v : ℚ) (tset now ttl : ℚ) :
    (now - tset < ttl →
      (c.set k tset v).get k now ttl = (some v, c.set k tset v)) ∧
    (¬ now - tset < ttl →
      ((c.set k tset v).get k now ttl).1 = Option.none ∧
      (((c.set k tset v).get k now ttl).2).lookup k = Option.none) ∧
    (c.lookup k = Option.none → c.get k now ttl = (Option.none, c)) := by
  refine ⟨?_, ?_, ?_⟩
  · intro h
    unfold CacheManager.get
    rw [CacheManager.lookup_set]
    simp [h]
  · intro h
    unfold CacheManager.get
    rw [CacheManager.lookup_set]
    simp only [h, if_false]
    exact ⟨trivial, CacheManager.lookup_erase _ k⟩
  · intro h
    unfold CacheManager.get
    rw [h]
/-- Witness for C9: a value stored at time 10 is returned at time 11 with
TTL 5 and evicted at time 20. -/
theorem c9_cache_ttl_witness :
    ((CacheManager.mk ([] : List (String × ℚ × ℚ))).set "k" 10 42).get "k" 11 5
      = (some 42, (CacheManager.mk []).set "k" 10 42) ∧
    (((CacheManager.mk ([] : List (String × ℚ × ℚ))).set "k" 10 42).get "k" 20 5).1
      = Option.none := by
  constructor
  · exact (c9_cache_ttl ⟨[]⟩ "k" 42 10 11 5).1 (by norm_num)
  · exact ((c9_cache_ttl ⟨[]⟩ "k" 42 10 20 5).2.1 (by norm_num)).1

/-- C5 counterexample: with strikes `[1, 2, 3]`, underlying price 1 and
`max_strikes = 2`, the retained window is `[1, 2]`; the strike nearest the
underlying (1) sits at offset 0, not at the window's centre offset
`max_strikes / 2 = 1`, so the window is not centered on the nearest strike
(it is clamped at the list's start). -/
theorem c5_counterexample :
    window_strikes 1 2 [1, 2, 3] = [1, 2] ∧
    nearestStrike 1 [1, 2, 3] = 1 ∧
    (window_strikes 1 2 [1, 2, 3]).getD (2 / 2) 0 ≠ nearestStrike 1 [1, 2, 3] := by
  have hc : closestIdx 1 [1, 2, 3] = 0 := by
    norm_num [closestIdx, closestIdxAux, List.range, List.range.loop]
  have hw : window_strikes 1 2 [1, 2, 3] = [1, 2] := by
    rw [window_strikes]
    rw [if_pos (by norm_num)]
    simp only [hc]
    rfl
  have hn : nearestStrike 1 [1, 2, 3] = 1 := by
    rw [nearestStrike, hc]
    rfl
  refine ⟨hw, hn, ?_⟩
  rw [hw, hn]
  norm_num

/-- C5 (amended): the strikes list returned by the chain windowing never
exceeds `max_strikes` entries; and in the windowing branch (positive
underlying, more than `max_strikes` survivors) the window is centered on the
strike nearest the underlying — the nearest strike sits at window offset
`max_strikes / 2` — whenever the full centered window fits inside the strike
list; at the boundaries the window is clamped instead. -/
theorem c5_window_length_and_center (u : ℚ) (m : ℕ) (l : List ℚ) :
    (window_strikes u m l).length ≤ m ∧
    (u > 0 → l.length > m → 1 ≤ m →
      m / 2 ≤ closestIdx u l → closestIdx u l + (m - m / 2) ≤ l.length →
      (window_strikes u m l).getD (m / 2) 0 = nearestStrike u l) := by
  constructor
  · rw [window_strikes]
    split_ifs with h1 h2
    · simp only [List.length_take, List.length_drop]
      have hmin : min l.length (closestIdx u l - m / 2 + m) ≤ closestIdx u l - m / 2 + m :=
        Nat.min_le_right _ _
      omega
    · simp only [List.length_take]
      omega
    · omega
  · intro hu hl hm hhalf hfit
    rw [window_strikes, if_pos ⟨hu, hl⟩]
    dsimp only
    have hsm : closestIdx u l - m / 2 + m ≤ l.length := by omega
    rw [Nat.min_eq_right hsm, Nat.add_sub_cancel_left]
    rw [List.getD_eq_getElem?_getD, List.getElem?_take, if_pos (by omega : m / 2 < m),
      List.getElem?_drop]
    have hidx : closestIdx u l - m / 2 + m / 2 = closestIdx u l := by omega
    rw [hidx, nearestStrike, List.getD_eq_getElem?_getD]

/-- Witness for C5 (amended): with underlying 3 over strikes `[1..5]` and
`max_strikes = 2` the window fits, holds at most 2 strikes, and carries the
nearest strike (3) at its centre offset 1. -/
theorem c5_window_length_and_center_witness :
    (window_strikes 3 2 [1, 2, 3, 4, 5]).length ≤ 2 ∧
    (window_strikes 3 2 [1, 2, 3, 4, 5]).getD 1 0 = nearestStrike 3 [1, 2, 3, 4, 5] := by
  have hc : closestIdx 3 [1, 2, 3, 4, 5] = 2 := by
    norm_num [closestIdx, closestIdxAux, List.range, List.range.loop]
  constructor
  · exact (c5_window_length_and_center 3 2 [1, 2, 3, 4, 5]).1
  · exact (c5_window_length_and_center 3 2 [1, 2, 3, 4, 5]).2 (by norm_num) (by norm_num)
      (by norm_num) (by rw [hc]; decide) (by rw [hc]; decide)

/-- C8: option-leg normalization maps `CALL` to `C` and `PUT` to `P` and
strips the dashes from `2026-01-16`, and the contracts submitted by
`place_options_order` (single-leg and multi-leg paths) carry exactly the
normalized right and expiry. -/
theorem c8_leg_normalization :
    normalize_right "CALL" = "C" ∧ normalize_right "PUT" = "P" ∧
    normalize_expiry "2026-01-16" = "20260116" ∧
    (IBClient.place_options_order true true gwAccept [c8LegCall] "MARKET" Option.none).2
      = [({ symbol := "AAPL", lastTradeDateOrContractMonth := "20260116", strike := 250,
            right := "C" }, PyOrder.market "BUY" 1)] ∧
    (IBClient.place_options_order true true gwAccept [c8LegCall, c8LegPut] "MARKET"
        Option.none).2
      = [({ symbol := "AAPL", lastTradeDateOrContractMonth := "20260116", strike := 250,
            right := "C" }, PyOrder.market "BUY" 1),
         ({ symbol := "AAPL", lastTradeDateOrContractMonth := "20260116", strike := 240,
            right := "P" }, PyOrder.market "SELL" 1)] := by
  decide
theorem intercalate_singleton (s a : String) : String.intercalate s [a] = a := by
  simp only [String.intercalate]
  rfl

theorem OptionOrder.build_ok {leg : OrderLeg} {ot : String} {lp : Option ℚ}
    {o : OptionOrder} (h : OptionOrder.build leg ot lp = .ok o) :
    o.order_type = ot ∧ o.limit_price = lp := by
  unfold OptionOrder.build at h
  repeat' split at h
  any_goals cases h
  exact ⟨rfl, rfl⟩

theorem alpaca_market_submit_ok (submit : Except String (ℕ × String))
    (order : OptionOrder) (hot : order.order_type = "MARKET") (oid : ℕ) (stat : String)
    (hs : submit = .ok (oid, stat)) :
    AlpacaBroker.place_option_order true submit order
      = ({ success := true, error := Option.none, order_id := some oid,
           message := some ("Option order placed: " ++ order.action ++ " " ++
             toString order.quantity ++ " " ++ alpaca_build_symbol order),
           status := some stat }, true) := by
  unfold AlpacaBroker.place_option_order
  rw [hot, hs]
  simp only [if_pos (by decide : ¬ True = False)]
  rfl

theorem alpaca_market_submit_error (submit : Except String (ℕ × String))
    (order : OptionOrder) (hot : order.order_type = "MARKET") (e : String)
    (hs : submit = .error e) :
    AlpacaBroker.place_option_order true submit order
      = ({ success := false, error := some e, order_id := Option.none,
           message := Option.none, status := Option.none }, true) := by
  unfold AlpacaBroker.place_option_order
  rw [hot, hs]
  rfl

/-- C7 counterexample: in the Alpaca broker a 2-leg LIMIT order with
`limit_price=None` is rejected before any submission, but with the message
`Multi-leg LIMIT orders not yet supported for Alpaca broker adapter`, which
does not contain `Limit price required`. -/
theorem c7_counterexample :
    (AlpacaBroker.place_multileg_option_order true alpacaNever [c2LegCall, c2LegPut]
        "LIMIT" Option.none).1.error
      = some "Multi-leg LIMIT orders not yet supported for Alpaca broker adapter" ∧
    (AlpacaBroker.place_multileg_option_order true alpacaNever [c2LegCall, c2LegPut]
        "LIMIT" Option.none).2 = 0 ∧
    ¬ List.IsInfix "Limit price required".toList
        "Multi-leg LIMIT orders not yet supported for Alpaca broker adapter".toList := by
  refine ⟨by decide, by decide, by decide⟩

/-- C7 (amended): in the IBKR broker a multi-leg LIMIT order with
`limit_price=None`, whose first leg has a valid symbol and a quantity that
`int()` converts without raising (an infinite quantity instead raises
`OverflowError` at the conversion on line 660, before the limit check), is
rejected with `Limit price required for LIMIT orders (leg 1)` — a message
containing `Limit price required` — and no gateway call is made; in the
Alpaca broker every multi-leg LIMIT order (first leg well-formed) is rejected
with `Multi-leg LIMIT orders not yet supported for Alpaca broker adapter`
before any submission. -/
theorem c7_limit_price_validation :
    (∀ (gw : ℕ → Except String IBTrade) (l1 l2 : OrderLeg) (rest : List OrderLeg)
        (sym : String) (q : ℤ), validate_symbol l1.symbol = .ok sym →
      safe_int l1.quantity 1 = .ok q →
      IBClient.place_options_order true true gw (l1 :: l2 :: rest) "LIMIT" Option.none
          = (errorResponse "Limit price required for LIMIT orders (leg 1)", []) ∧
        List.IsInfix "Limit price required".toList
          "Limit price required for LIMIT orders (leg 1)".toList) ∧
    (∀ (submits : ℕ → Except String (ℕ × String)) (l1 l2 : OrderLeg)
        (rest : List OrderLeg) (o1 : OptionOrder),
      OptionOrder.build l1 "LIMIT" Option.none = .ok o1 →
      AlpacaBroker.place_multileg_option_order true submits (l1 :: l2 :: rest) "LIMIT"
          Option.none
        = (errorResponse "Multi-leg LIMIT orders not yet supported for Alpaca broker adapter",
           0)) := by
  constructor
  · intro gw l1 l2 rest sym q hsym hq
    refine ⟨?_, by decide⟩
    unfold IBClient.place_options_order
    rw [if_neg (by decide), if_neg (by simp : ¬ (l1 :: l2 :: rest).isEmpty = true)]
    show ib_multileg_loop gw "LIMIT" Option.none (l1 :: l2 :: rest) 0 [] [] [] = _
    unfold ib_multileg_loop
    rw [hsym]
    dsimp only
    rw [hq]
    dsimp only
    rw [if_neg (by decide : ¬ pyUpper "LIMIT" = "MARKET")]
    rfl
  · intro submits l1 l2 rest o1 hb
    unfold AlpacaBroker.place_multileg_option_order
    show (match AlpacaBroker.multileg_loop true submits (l1 :: l2 :: rest).length "LIMIT"
        Option.none (l1 :: l2 :: rest) 0 [] [] 0 with
      | .inr out => out
      | .inl (results, errors, submitted) =>
          if ¬ errors.isEmpty then
            ({ success := false,
               error := some ("Errors placing legs: " ++ String.intercalate ", " errors),
               order_id := Option.none, order_ids := Option.none, status := Option.none,
               message := Option.none, partial_results := some results,
               legs := Option.none }, submitted)
          else
            ({ success := true, error := Option.none, order_id := Option.none,
               order_ids := Option.none, status := Option.none,
               message := some ("Placed " ++ toString results.length ++ " legs"),
               partial_results := Option.none, legs := some results }, submitted)) = _
    unfold AlpacaBroker.multileg_loop
    rw [hb]
    dsimp only
    rw [if_pos ⟨by simp [List.length_cons], rfl⟩]

/-- Witness for C7 (amended) at concrete 2-leg orders. -/
theorem c7_limit_price_validation_witness :
    IBClient.place_options_order true true gwAccept [c2LegCall, c2LegPut] "LIMIT"
        Option.none
      = (errorResponse "Limit price required for LIMIT orders (leg 1)", []) ∧
    AlpacaBroker.place_multileg_option_order true alpacaNever [c2LegCall, c2LegPut]
        "LIMIT" Option.none
      = (errorResponse "Multi-leg LIMIT orders not yet supported for Alpaca broker adapter",
         0) := by
  constructor
  · exact (c7_limit_price_validation.1 gwAccept c2LegCall c2LegPut [] "AAPL" (pyTrunc 1)
      (by rfl) (by rfl)).1
  · exact c7_limit_price_validation.2 alpacaNever c2LegCall c2LegPut []
      { symbol := "AAPL", expiry := "20260116", strike := 250, right := "C",
        action := "BUY", quantity := 1, order_type := "LIMIT",
        limit_price := Option.none } (by rfl)

/-- C2 counterexample: in the IBKR broker a 2-leg MARKET order whose second
`placeOrder` raises returns the bare
`{"success": false, "error": "rejected"}` dict of the outer `except` branch:
there is no `partial_results` key at all (the claim requires a
`partial_results` list of length 1), even though the first leg was already
submitted (two gateway calls were made). -/
theorem c2_counterexample :
    (IBClient.place_options_order true true gwFailSecond [c2LegCall, c2LegPut] "MARKET"
        Option.none).1 = errorResponse "rejected" ∧
    (IBClient.place_options_order true true gwFailSecond [c2LegCall, c2LegPut] "MARKET"
        Option.none).1.partial_results = Option.none ∧
    (IBClient.place_options_order true true gwFailSecond [c2LegCall, c2LegPut] "MARKET"
        Option.none).1.success = false ∧
    (IBClient.place_options_order true true gwFailSecond [c2LegCall, c2LegPut] "MARKET"
        Option.none).2.length = 2 := by
  refine ⟨by decide, by decide, by decide, by decide⟩

/-- C2 (amended): in the Alpaca broker, a 2-leg MARKET order whose second
submission fails continues past the failure and returns `success=false`
together with a `partial_results` list of length 1 (the successfully placed
first leg) and an error list of length 1 (joined into the error string);
both legs were submitted (two `submit_order` calls), so a leg failure does
not abort the remaining legs.  In the IBKR broker a leg failure instead
aborts the loop and returns a bare error dict. -/
theorem c2_alpaca_partial_failure (submits : ℕ → Except String (ℕ × String))
    (l1 l2 : OrderLeg) (o1 o2 : OptionOrder) (oid : ℕ) (stat e : String)
    (h1 : OptionOrder.build l1 "MARKET" Option.none = .ok o1)
    (h2 : OptionOrder.build l2 "MARKET" Option.none = .ok o2)
    (hs0 : submits 0 = .ok (oid, stat))
    (hs1 : submits 1 = .error e) :
    (AlpacaBroker.place_multileg_option_order true submits [l1, l2] "MARKET"
        Option.none).1.success = false ∧
    ((AlpacaBroker.place_multileg_option_order true submits [l1, l2] "MARKET"
        Option.none).1.partial_results.map List.length) = some 1 ∧
    (∃ r, (AlpacaBroker.place_multileg_option_order true submits [l1, l2] "MARKET"
        Option.none).1.partial_results = some [r] ∧ r.success = true) ∧
    (AlpacaBroker.place_multileg_option_order true submits [l1, l2] "MARKET"
        Option.none).1.error = some ("Errors placing legs: " ++ e) ∧
    (AlpacaBroker.place_multileg_option_order true submits [l1, l2] "MARKET"
        Option.none).2 = 2 := by
  have hres1 := alpaca_market_submit_ok (submits 0) o1 (OptionOrder.build_ok h1).1
    oid stat hs0
  have hres2 := alpaca_market_submit_error (submits 1) o2 (OptionOrder.build_ok h2).1
    e hs1
  have hloop : AlpacaBroker.multileg_loop true submits ([l1, l2] : List OrderLeg).length
      "MARKET" Option.none [l1, l2] 0 [] [] 0
      = .inl ([(AlpacaBroker.place_option_order true (submits 0) o1).1], [e], 2) := by
    unfold AlpacaBroker.multileg_loop
    rw [h1]
    dsimp only
    rw [if_neg (by simp : ¬ (([l1, l2] : List OrderLeg).length > 1 ∧ "MARKET" = "LIMIT"))]
    rw [hres1]
    dsimp only
    unfold AlpacaBroker.multileg_loop
    rw [h2]
    dsimp only
    rw [if_neg (by simp : ¬ (([l1, l2] : List OrderLeg).length > 1 ∧ "MARKET" = "LIMIT"))]
    rw [hres2]
    rfl
  have hout : AlpacaBroker.place_multileg_option_order true submits [l1, l2] "MARKET"
      Option.none
      = ({ success := false,
           error := some ("Errors placing legs: " ++ String.intercalate ", " [e]),
           order_id := Option.none, order_ids := Option.none, status := Option.none,
           message := Option.none,
           partial_results := some [(AlpacaBroker.place_option_order true (submits 0) o1).1],
           legs := Option.none }, 2) := by
    unfold AlpacaBroker.place_multileg_option_order
    rw [hloop]
    rfl
  rw [hout]
  refine ⟨rfl, rfl, ⟨_, rfl, ?_⟩, ?_, rfl⟩
  · rw [hres1]
  · rw [intercalate_singleton]

/-- Witness for C2 (amended): the concrete 2-leg MARKET order where the
second submission raises. -/
theorem c2_alpaca_partial_failure_witness :
    (AlpacaBroker.place_multileg_option_order true alpacaFailSecond [c2LegCall, c2LegPut]
        "MARKET" Option.none).1.success = false ∧
    ((AlpacaBroker.place_multileg_option_order true alpacaFailSecond [c2LegCall, c2LegPut]
        "MARKET" Option.none).1.partial_results.map List.length) = some 1 ∧
    (AlpacaBroker.place_multileg_option_order true alpacaFailSecond [c2LegCall, c2LegPut]
        "MARKET" Option.none).2 = 2 := by
  have h := c2_alpaca_partial_failure alpacaFailSecond c2LegCall c2LegPut
    { symbol := "AAPL", expiry := "20260116", strike := 250, right := "C",
      action := "BUY", quantity := 1, order_type := "MARKET", limit_price := Option.none }
    { symbol := "AAPL", expiry := "20260116", strike := 240, right := "P",
      action := "SELL", quantity := 1, order_type := "MARKET", limit_price := Option.none }
    11 "accepted" "rejected by alpaca" rfl rfl rfl rfl
  exact ⟨h.1, h.2.1, h.2.2.2.2⟩
